import Mathlib

/-!
Verification of the per-rule signaling and lifecycle primitive of
`pkg/services/ngalert/schedule/rule.go` (`alertRuleInfo` and its
operations `eval`, `update`, `stop`, and the constructor
`newAlertRuleInfo`).

The Go code uses two unbuffered channels (`evalCh`, `updateCh`) and a
cancellable context with a cause.  The embedding models a Go channel
explicitly (capacity, buffer, queue of blocked senders, count of blocked
receivers, closed flag), and models the coordinator's operations as pure
state transformers.  A blocking send that finds neither a ready receiver
nor a cancelled context is modelled as enqueuing the value on the
channel's sender queue and reporting delivery: the value then sits
"pending" attached to its (suspended) sender, which is exactly the
single-slot view the spec describes.  After cancellation the consumer
routine exits, so the send arm of the second `select` can never fire;
the `ctx.Done()` arm is therefore taken deterministically once the
context is cancelled.

A separate phase-level model (`StepRes`, `drainEvalPhase`,
`placeEvalPhase`, ...) records where each operation can suspend: a
`select` with a `default` arm never suspends, a `select` without one
suspends exactly when none of its arms is ready.
-/

namespace GrafanaSchedule

/-- Opaque identifier of a schedulable rule (`models.AlertRuleKey`:
org id plus rule UID).  Treated as an opaque value by the coordinator. -/
structure AlertRuleKey where
  orgID : Int
  uid : String
deriving DecidableEq, Repr

/-- Opaque evaluation message (`*evaluation`): one evaluation request,
identified here by its scheduled time.  The coordinator never inspects
it, so one field suffices. -/
structure Evaluation where
  scheduledAt : Nat
deriving DecidableEq, Repr

/-- Opaque version message (`ruleVersionAndPauseStatus`): a rule version
plus pause status.  The coordinator never inspects it. -/
structure RuleVersionAndPauseStatus where
  version : Nat
  isPaused : Bool
deriving DecidableEq, Repr

/-- Cancellation cause (the `error` passed to `stop`/`cancel`). -/
structure Cause where
  msg : String
deriving DecidableEq, Repr

/-- Model of a Go channel: its capacity, the buffered values, the values
held by blocked senders (FIFO), the number of blocked receivers, and
whether the channel has been closed. -/
structure GoChan (α : Type) where
  cap : Nat
  buf : List α
  sendq : List α
  recvq : Nat
  closed : Bool
deriving DecidableEq, Repr

/-- Model of `make(chan T, c)`; `make(chan T)` is `makeChan α 0`:
capacity zero, empty buffer, no blocked senders or receivers, open. -/
def makeChan (α : Type) (c : Nat) : GoChan α :=
  { cap := c, buf := [], sendq := [], recvq := 0, closed := false }

/-- Non-blocking receive (`case v := <-ch:` inside a `select` that has a
`default` arm).  Takes a buffered value if any (refilling the buffer
from a blocked sender), otherwise takes directly from a blocked sender
(the capacity-zero rendezvous), otherwise finds nothing. -/
def GoChan.tryRecv {α : Type} (ch : GoChan α) : GoChan α × Option α :=
  match ch.buf with
  | v :: rest =>
    match ch.sendq with
    | w :: ws => ({ ch with buf := rest ++ [w], sendq := ws }, some v)
    | [] => ({ ch with buf := rest }, some v)
  | [] =>
    match ch.sendq with
    | w :: ws => ({ ch with sendq := ws }, some w)
    | [] => (ch, none)

/-- Non-blocking send attempt: hands the value to a blocked receiver if
one is waiting, else buffers it if the buffer has room below capacity,
else fails (the sender would have to block). -/
def GoChan.trySend {α : Type} (ch : GoChan α) (v : α) : GoChan α × Bool :=
  if 0 < ch.recvq then ({ ch with recvq := ch.recvq - 1 }, true)
  else if ch.buf.length < ch.cap then ({ ch with buf := ch.buf ++ [v] }, true)
  else (ch, false)

/-- A sender that could not complete immediately blocks: its value joins
the sender queue, pending until a receiver takes it. -/
def GoChan.blockSend {α : Type} (ch : GoChan α) (v : α) : GoChan α :=
  { ch with sendq := ch.sendq ++ [v] }

/-- State of one `alertRuleInfo`: the rule key, the two channels, and
the lifecycle context collapsed to its observable content — `none`
while active, `some cause` once cancelled (`ctx.Done()` is ready exactly
when `cancelled.isSome`). -/
structure AlertRuleInfo where
  key : AlertRuleKey
  evalCh : GoChan Evaluation
  updateCh : GoChan RuleVersionAndPauseStatus
  cancelled : Option Cause
deriving DecidableEq, Repr

/-- Modelled from the spec: `util.WithCancelCause`'s cancel function is
not under src (only its call site in `stop` is).  Per spec section 4.2,
`cancel(cause)` records `cause` if not already cancelled and is a no-op
(the cause is not overwritten) on subsequent calls. -/
def cancelCause (c : Option Cause) (reason : Cause) : Option Cause :=
  match c with
  | some c0 => some c0
  | none => some reason

/-- `newAlertRuleInfo`: fresh coordinator with two unbuffered channels
(`make(chan *evaluation)` and `make(chan ruleVersionAndPauseStatus)`,
both capacity zero) and an un-cancelled context. -/
def newAlertRuleInfo (key : AlertRuleKey) : AlertRuleInfo :=
  { key := key
    evalCh := makeChan Evaluation 0
    updateCh := makeChan RuleVersionAndPauseStatus 0
    cancelled := none }

/-- Second `select` of `eval`/`update` when the context is not
cancelled: the value is placed — handed to a waiting receiver if one is
ready, otherwise the sender blocks with the value pending on the
channel. -/
def GoChan.place {α : Type} (ch : GoChan α) (v : α) : GoChan α :=
  let s := ch.trySend v
  if s.2 then s.1 else ch.blockSend v

/-- `alertRuleInfo.eval` (rule.go lines 36-50).  First `select`: a
non-blocking drain of `evalCh` capturing any concurrent sender's value
as `droppedMsg`.  Second `select`: send the new evaluation, racing
`ctx.Done()`.  Once cancelled the consumer has exited, so the `Done` arm
is taken and the call returns `false`; otherwise the value is placed and
the call reports `true`.  Returns (new state, delivered, dropped). -/
def AlertRuleInfo.eval (a : AlertRuleInfo) (e : Evaluation) :
    AlertRuleInfo × Bool × Option Evaluation :=
  let p := a.evalCh.tryRecv
  let droppedMsg := p.2
  let a1 := { a with evalCh := p.1 }
  match a1.cancelled with
  | some _ => (a1, false, droppedMsg)
  | none => ({ a1 with evalCh := a1.evalCh.place e }, true, droppedMsg)

/-- `alertRuleInfo.update` (rule.go lines 53-68).  First `select`:
drain `updateCh` (discarding the drained value), or observe
`ctx.Done()` and return `false`, or fall through the `default` arm.
Second `select`: send the new version, racing `ctx.Done()`.  Returns
(new state, delivered); the drained value is never returned. -/
def AlertRuleInfo.update (a : AlertRuleInfo) (v : RuleVersionAndPauseStatus) :
    AlertRuleInfo × Bool :=
  match a.updateCh.tryRecv with
  | (ch1, some _) =>
    let a1 := { a with updateCh := ch1 }
    match a1.cancelled with
    | some _ => (a1, false)
    | none => ({ a1 with updateCh := a1.updateCh.place v }, true)
  | (_, none) =>
    match a.cancelled with
    | some _ => (a, false)
    | none => ({ a with updateCh := a.updateCh.place v }, true)

/-- `alertRuleInfo.stop` (rule.go lines 71-73): cancels the lifecycle
context with the given reason and does nothing else. -/
def AlertRuleInfo.stop (a : AlertRuleInfo) (reason : Cause) : AlertRuleInfo :=
  { a with cancelled := cancelCause a.cancelled reason }

/-- One consumption event on the evaluation channel: the moment the
consumer routine's receive fires, taking the pending sender's value if
one is present. -/
def AlertRuleInfo.consumeEval (a : AlertRuleInfo) : AlertRuleInfo × Option Evaluation :=
  let p := a.evalCh.tryRecv
  ({ a with evalCh := p.1 }, p.2)

/-- Runs a sequence of `eval` calls, collecting each call's
(delivered, dropped) result. -/
def runTriggers : AlertRuleInfo → List Evaluation → AlertRuleInfo × List (Bool × Option Evaluation)
  | a, [] => (a, [])
  | a, e :: es =>
    let r := a.eval e
    let rest := runTriggers r.1 es
    (rest.1, (r.2.1, r.2.2) :: rest.2)

/-- Runs a sequence of `update` calls, collecting each call's delivered
flag. -/
def runUpdates : AlertRuleInfo → List RuleVersionAndPauseStatus → AlertRuleInfo × List Bool
  | a, [] => (a, [])
  | a, v :: vs =>
    let r := a.update v
    let rest := runUpdates r.1 vs
    (rest.1, r.2 :: rest.2)

/-- Expected (delivered, dropped) results of a trigger sequence with no
intervening consumption, starting with pending value `d`: every call
delivers, and each call returns the previous call's value as dropped. -/
def droppedSeq : Option Evaluation → List Evaluation → List (Bool × Option Evaluation)
  | _, [] => []
  | d, e :: es => (true, d) :: droppedSeq (some e) es

/-- Result of one phase of an operation: it either completes with a
value or suspends the calling goroutine. -/
inductive StepRes (α : Type) where
  | done (val : α)
  | suspended
deriving DecidableEq, Repr

/-- Drain phase of `eval` (rule.go lines 39-42): a `select` whose only
arms are the non-blocking receive and `default`, so it always completes
in one step, with or without a drained value. -/
def drainEvalPhase (a : AlertRuleInfo) : StepRes (AlertRuleInfo × Option Evaluation) :=
  let p := a.evalCh.tryRecv
  StepRes.done ({ a with evalCh := p.1 }, p.2)

/-- First `select` of `update` (rule.go lines 55-60): receive, or
`ctx.Done()`, or `default` — the `default` arm again makes it complete
in one step.  The `Bool` is true when the `Done` arm made `update`
return early. -/
def drainUpdatePhase (a : AlertRuleInfo) : StepRes (AlertRuleInfo × Bool) :=
  match a.updateCh.tryRecv with
  | (ch1, some _) => StepRes.done ({ a with updateCh := ch1 }, false)
  | (_, none) =>
    match a.cancelled with
    | some _ => StepRes.done (a, true)
    | none => StepRes.done (a, false)

/-- Placement phase of `eval` (rule.go lines 44-49): a `select` with no
`default` arm; it completes when the send can be accepted at once or
the context is cancelled, and suspends otherwise. -/
def placeEvalPhase (a : AlertRuleInfo) (e : Evaluation) : StepRes (AlertRuleInfo × Bool) :=
  match a.cancelled with
  | some _ => StepRes.done (a, false)
  | none =>
    let s := a.evalCh.trySend e
    if s.2 then StepRes.done ({ a with evalCh := s.1 }, true) else StepRes.suspended

/-- Placement phase of `update` (rule.go lines 62-67), same shape as
`placeEvalPhase`. -/
def placeUpdatePhase (a : AlertRuleInfo) (v : RuleVersionAndPauseStatus) :
    StepRes (AlertRuleInfo × Bool) :=
  match a.cancelled with
  | some _ => StepRes.done (a, false)
  | none =>
    let s := a.updateCh.trySend v
    if s.2 then StepRes.done ({ a with updateCh := s.1 }, true) else StepRes.suspended

/-- Lifecycle phase of `stop`: context cancellation never blocks, so
`stop` completes in one step without waiting for the consumer routine. -/
def stopPhase (a : AlertRuleInfo) (c : Cause) : StepRes AlertRuleInfo :=
  StepRes.done (a.stop c)

theorem GoChan.tryRecv_frame {α : Type} (ch : GoChan α) :
    (ch.tryRecv).1.closed = ch.closed ∧ (ch.tryRecv).1.cap = ch.cap ∧
      (ch.tryRecv).1.recvq = ch.recvq := by
  cases hb : ch.buf <;> cases hs : ch.sendq <;>
    simp [GoChan.tryRecv, hb, hs]

theorem GoChan.trySend_frame {α : Type} (ch : GoChan α) (v : α) :
    (ch.trySend v).1.closed = ch.closed ∧ (ch.trySend v).1.cap = ch.cap ∧
      (ch.trySend v).1.sendq = ch.sendq := by
  unfold GoChan.trySend
  split <;> [skip; split] <;> simp

theorem GoChan.place_frame {α : Type} (ch : GoChan α) (v : α) :
    (ch.place v).closed = ch.closed ∧ (ch.place v).cap = ch.cap := by
  unfold GoChan.place
  cases hs : (ch.trySend v).2 <;>
    simp [hs, GoChan.blockSend, (ch.trySend_frame v).1, (ch.trySend_frame v).2.1]

/-- C5: for every call to `eval`, the dropped return value is exactly
the value obtained by the non-blocking drain of `evalCh` — returned
identically whether the call reports `delivered = true` or falls to the
cancellation arm and reports `delivered = false`. -/
theorem eval_dropped_eq_drained (a : AlertRuleInfo) (e : Evaluation) :
    (a.eval e).2.2 = (a.evalCh.tryRecv).2 ∧
      ((a.eval e).2.1 = false ↔ a.cancelled.isSome) := by
  cases hc : a.cancelled <;> simp [AlertRuleInfo.eval, hc]

/-- C6: `stop` is idempotent and total: a second `stop`, with any cause,
leaves the recorded cancellation state unchanged, and starting from an
active coordinator the recorded cause is the first `stop`'s cause,
never a later one's. -/
theorem stop_idempotent_keeps_first_cause (a : AlertRuleInfo) (c1 c2 : Cause) :
    ((a.stop c1).stop c2).cancelled = (a.stop c1).cancelled ∧
      (a.cancelled = none → ((a.stop c1).stop c2).cancelled = some c1) := by
  cases hc : a.cancelled <;> simp [AlertRuleInfo.stop, cancelCause, hc]

theorem stop_idempotent_keeps_first_cause_witness :
    (((newAlertRuleInfo ⟨1, "u"⟩).stop ⟨"first"⟩).stop ⟨"second"⟩).cancelled =
      some ⟨"first"⟩ :=
  (stop_idempotent_keeps_first_cause (newAlertRuleInfo ⟨1, "u"⟩) ⟨"first"⟩ ⟨"second"⟩).2 rfl

/-- C8: the drain step of `eval` and the first `select` of `update`
have a `default` arm, so they complete without suspending on every
state; only the placement phase can suspend, and it suspends exactly
when the context is still active and the send cannot complete at once. -/
theorem drain_completes_only_placement_suspends
    (a b : AlertRuleInfo) (e : Evaluation) (v : RuleVersionAndPauseStatus) :
    drainEvalPhase a ≠ StepRes.suspended ∧
      drainUpdatePhase a ≠ StepRes.suspended ∧
      (placeEvalPhase b e = StepRes.suspended ↔
        b.cancelled = none ∧ (b.evalCh.trySend e).2 = false) ∧
      (placeUpdatePhase b v = StepRes.suspended ↔
        b.cancelled = none ∧ (b.updateCh.trySend v).2 = false) := by
  refine ⟨?_, ?_, ?_, ?_⟩
  · simp [drainEvalPhase]
  · unfold drainUpdatePhase
    split
    · simp
    · cases hc : a.cancelled <;> simp
  · cases hc : b.cancelled
    · cases hs : (b.evalCh.trySend e).2 <;> simp [placeEvalPhase, hc, hs]
    · simp [placeEvalPhase, hc]
  · cases hc : b.cancelled
    · cases hs : (b.updateCh.trySend v).2 <;> simp [placeUpdatePhase, hc, hs]
    · simp [placeUpdatePhase, hc]

/-- C10: `stop` only cancels the lifecycle context: the key and both
channels are left exactly as they were, no coordinator operation ever
closes a channel, and `stop` completes in one step without waiting for
the consumer routine. -/
theorem stop_frame_and_channels_never_closed
    (a : AlertRuleInfo) (c : Cause) (e : Evaluation) (v : RuleVersionAndPauseStatus) :
    (a.stop c).key = a.key ∧
      (a.stop c).evalCh = a.evalCh ∧
      (a.stop c).updateCh = a.updateCh ∧
      stopPhase a c ≠ StepRes.suspended ∧
      (a.eval e).1.evalCh.closed = a.evalCh.closed ∧
      (a.eval e).1.updateCh = a.updateCh ∧
      (a.update v).1.updateCh.closed = a.updateCh.closed ∧
      (a.update v).1.evalCh = a.evalCh ∧
      (a.consumeEval).1.evalCh.closed = a.evalCh.closed := by
  have hre := a.evalCh.tryRecv_frame
  have hru := a.updateCh.tryRecv_frame
  refine ⟨rfl, rfl, rfl, by simp [stopPhase], ?_, ?_, ?_, ?_, ?_⟩
  · cases hc : a.cancelled <;>
      simp [AlertRuleInfo.eval, hc, hre.1, ((a.evalCh.tryRecv).1.place_frame e).1]
  · cases hc : a.cancelled <;> simp [AlertRuleInfo.eval, hc]
  · unfold AlertRuleInfo.update
    split
    · rename_i ch1 w heq
      cases hc : a.cancelled <;>
        simp [hc, (ch1.place_frame v).1, show ch1.closed = a.updateCh.closed by
          have := congrArg (fun p => p.1.closed) heq
          simpa [hru.1] using this.symm]
    · cases hc : a.cancelled <;>
        simp [hc, ((a.updateCh).place_frame v).1]
  · unfold AlertRuleInfo.update
    split
    · cases hc : a.cancelled <;> simp [hc]
    · cases hc : a.cancelled <;> simp [hc]
  · simp [AlertRuleInfo.consumeEval, hre.1]

/-- C1: on a fresh, un-stopped coordinator, calling `eval E1` and then
`eval E2` with no consumption in between makes the second call return E1
as its dropped value, and a consumer reading the evaluation slot
afterwards observes E2 and never E1. -/
theorem second_trigger_drops_first_consumer_sees_second
    (k : AlertRuleKey) (e1 e2 : Evaluation) (hne : e1 ≠ e2) :
    (((newAlertRuleInfo k).eval e1).1.eval e2).2.2 = some e1 ∧
      ((((newAlertRuleInfo k).eval e1).1.eval e2).1.consumeEval).2 = some e2 ∧
      ((((newAlertRuleInfo k).eval e1).1.eval e2).1.consumeEval).2 ≠ some e1 := by
  refine ⟨?_, ?_, ?_⟩ <;>
    simp [newAlertRuleInfo, makeChan, AlertRuleInfo.eval, AlertRuleInfo.consumeEval,
      GoChan.tryRecv, GoChan.place, GoChan.trySend, GoChan.blockSend]
  exact fun h => hne h.symm

theorem second_trigger_drops_first_consumer_sees_second_witness :
    (⟨1⟩ : Evaluation) ≠ ⟨2⟩ ∧
      ((((newAlertRuleInfo ⟨1, "u"⟩).eval ⟨1⟩).1.eval ⟨2⟩).2.2 = some ⟨1⟩ ∧
        ((((newAlertRuleInfo ⟨1, "u"⟩).eval ⟨1⟩).1.eval ⟨2⟩).1.consumeEval).2 = some ⟨2⟩ ∧
        ((((newAlertRuleInfo ⟨1, "u"⟩).eval ⟨1⟩).1.eval ⟨2⟩).1.consumeEval).2 ≠ some ⟨1⟩) :=
  ⟨by decide,
    second_trigger_drops_first_consumer_sees_second ⟨1, "u"⟩ ⟨1⟩ ⟨2⟩ (by decide)⟩

/-- C2: once `stop` has been called (so the context records a cause),
every subsequent `eval` reports `delivered = false` and every
subsequent `update` returns `false`, with no error path; no operation
un-cancels the context, so this persists forever; and on a coordinator
stopped before any trigger, `eval E1` returns `(false, none)`. -/
theorem stopped_coordinator_rejects_all_calls
    (a b : AlertRuleInfo) (c : Cause) (k : AlertRuleKey)
    (e : Evaluation) (v : RuleVersionAndPauseStatus)
    (hb : b.cancelled.isSome = true) :
    (a.stop c).cancelled.isSome = true ∧
      (b.eval e).2.1 = false ∧
      (b.update v).2 = false ∧
      (b.eval e).1.cancelled = b.cancelled ∧
      (b.update v).1.cancelled = b.cancelled ∧
      (b.consumeEval).1.cancelled = b.cancelled ∧
      (b.stop c).cancelled = b.cancelled ∧
      (((newAlertRuleInfo k).stop c).eval e).2 = (false, none) := by
  obtain ⟨cb, hcb⟩ := Option.isSome_iff_exists.mp hb
  refine ⟨?_, ?_, ?_, ?_, ?_, ?_, ?_, ?_⟩
  · cases hc : a.cancelled <;> simp [AlertRuleInfo.stop, cancelCause, hc]
  · simp [AlertRuleInfo.eval, hcb]
  · unfold AlertRuleInfo.update
    split <;> simp [hcb]
  · simp [AlertRuleInfo.eval, hcb]
  · unfold AlertRuleInfo.update
    split <;> simp [hcb]
  · simp [AlertRuleInfo.consumeEval]
  · simp [AlertRuleInfo.stop, cancelCause, hcb]
  · simp [newAlertRuleInfo, makeChan, AlertRuleInfo.stop, cancelCause,
      AlertRuleInfo.eval, GoChan.tryRecv]

theorem stopped_coordinator_rejects_all_calls_witness :
    ((newAlertRuleInfo ⟨1, "u"⟩).stop ⟨"x"⟩).cancelled.isSome = true ∧
      (((newAlertRuleInfo ⟨2, "w"⟩).stop ⟨"y"⟩).cancelled.isSome = true ∧
        (((newAlertRuleInfo ⟨2, "w"⟩).stop ⟨"y"⟩).eval ⟨1⟩).2.1 = false ∧
        (((newAlertRuleInfo ⟨2, "w"⟩).stop ⟨"y"⟩).update ⟨1, false⟩).2 = false ∧
        (((newAlertRuleInfo ⟨2, "w"⟩).stop ⟨"y"⟩).eval ⟨1⟩).1.cancelled =
          ((newAlertRuleInfo ⟨2, "w"⟩).stop ⟨"y"⟩).cancelled ∧
        (((newAlertRuleInfo ⟨2, "w"⟩).stop ⟨"y"⟩).update ⟨1, false⟩).1.cancelled =
          ((newAlertRuleInfo ⟨2, "w"⟩).stop ⟨"y"⟩).cancelled ∧
        (((newAlertRuleInfo ⟨2, "w"⟩).stop ⟨"y"⟩).consumeEval).1.cancelled =
          ((newAlertRuleInfo ⟨2, "w"⟩).stop ⟨"y"⟩).cancelled ∧
        (((newAlertRuleInfo ⟨2, "w"⟩).stop ⟨"y"⟩).stop ⟨"x"⟩).cancelled =
          ((newAlertRuleInfo ⟨2, "w"⟩).stop ⟨"y"⟩).cancelled ∧
        (((newAlertRuleInfo ⟨3, "z"⟩).stop ⟨"x"⟩).eval ⟨1⟩).2 = (false, none)) :=
  ⟨by decide,
    stopped_coordinator_rejects_all_calls
      ((newAlertRuleInfo ⟨2, "w"⟩).stop ⟨"y"⟩) ((newAlertRuleInfo ⟨2, "w"⟩).stop ⟨"y"⟩)
      ⟨"x"⟩ ⟨3, "z"⟩ ⟨1⟩ ⟨1, false⟩ (by decide)⟩

/-- C3: once the context is cancelled, no signal is ever handed to the
consumer: from any reachable state (empty buffer, at most one pending
sender per channel), `eval` reports false and leaves the evaluation
slot empty — so the next consumption event yields nothing — and
`update` returns false and leaves no pending version; both placement
phases resolve at once to `done` rather than suspending. -/
theorem cancelled_context_never_delivers
    (a : AlertRuleInfo) (c : Cause) (e : Evaluation) (v : RuleVersionAndPauseStatus)
    (hc : a.cancelled = some c)
    (hebuf : a.evalCh.buf = []) (helen : a.evalCh.sendq.length ≤ 1)
    (hubuf : a.updateCh.buf = []) (hulen : a.updateCh.sendq.length ≤ 1) :
    (a.eval e).2.1 = false ∧
      (a.eval e).1.evalCh.sendq = [] ∧
      (a.eval e).1.evalCh.buf = [] ∧
      ((a.eval e).1.consumeEval).2 = none ∧
      (a.update v).2 = false ∧
      (a.update v).1.updateCh.sendq = [] ∧
      placeEvalPhase a e = StepRes.done (a, false) ∧
      placeUpdatePhase a v = StepRes.done (a, false) := by
  have hesq : a.evalCh.sendq = [] ∨ ∃ p, a.evalCh.sendq = [p] := by
    cases hs : a.evalCh.sendq with
    | nil => exact Or.inl rfl
    | cons p t =>
      have ht : t = [] := by
        rw [hs] at helen
        simpa [List.length_eq_zero, Nat.succ_le_succ_iff] using helen
      exact Or.inr ⟨p, by simp [ht]⟩
  have husq : a.updateCh.sendq = [] ∨ ∃ p, a.updateCh.sendq = [p] := by
    cases hs : a.updateCh.sendq with
    | nil => exact Or.inl rfl
    | cons p t =>
      have ht : t = [] := by
        rw [hs] at hulen
        simpa [List.length_eq_zero, Nat.succ_le_succ_iff] using hulen
      exact Or.inr ⟨p, by simp [ht]⟩
  refine ⟨?_, ?_, ?_, ?_, ?_, ?_, ?_, ?_⟩
  · simp [AlertRuleInfo.eval, hc]
  · rcases hesq with hs | ⟨p, hs⟩ <;>
      simp [AlertRuleInfo.eval, hc, GoChan.tryRecv, hebuf, hs]
  · rcases hesq with hs | ⟨p, hs⟩ <;>
      simp [AlertRuleInfo.eval, hc, GoChan.tryRecv, hebuf, hs]
  · rcases hesq with hs | ⟨p, hs⟩ <;>
      simp [AlertRuleInfo.eval, AlertRuleInfo.consumeEval, hc, GoChan.tryRecv, hebuf, hs]
  · rcases husq with hs | ⟨p, hs⟩ <;>
      simp [AlertRuleInfo.update, hc, GoChan.tryRecv, hubuf, hs]
  · rcases husq with hs | ⟨p, hs⟩ <;>
      simp [AlertRuleInfo.update, hc, GoChan.tryRecv, hubuf, hs]
  · simp [placeEvalPhase, hc]
  · simp [placeUpdatePhase, hc]

/-- Sample coordinator stopped while one evaluation is still pending. -/
def stoppedSample : AlertRuleInfo :=
  (((newAlertRuleInfo ⟨1, "u"⟩).eval ⟨5⟩).1).stop ⟨"shutdown"⟩

theorem cancelled_context_never_delivers_witness :
    (stoppedSample.cancelled = some ⟨"shutdown"⟩ ∧
      stoppedSample.evalCh.buf = [] ∧ stoppedSample.evalCh.sendq.length ≤ 1 ∧
      stoppedSample.updateCh.buf = [] ∧ stoppedSample.updateCh.sendq.length ≤ 1) ∧
      ((stoppedSample.eval ⟨6⟩).2.1 = false ∧
        (stoppedSample.eval ⟨6⟩).1.evalCh.sendq = [] ∧
        (stoppedSample.eval ⟨6⟩).1.evalCh.buf = [] ∧
        ((stoppedSample.eval ⟨6⟩).1.consumeEval).2 = none ∧
        (stoppedSample.update ⟨7, true⟩).2 = false ∧
        (stoppedSample.update ⟨7, true⟩).1.updateCh.sendq = [] ∧
        placeEvalPhase stoppedSample ⟨6⟩ = StepRes.done (stoppedSample, false) ∧
        placeUpdatePhase stoppedSample ⟨7, true⟩ = StepRes.done (stoppedSample, false)) :=
  ⟨by decide,
    cancelled_context_never_delivers stoppedSample ⟨"shutdown"⟩ ⟨6⟩ ⟨7, true⟩
      (by decide) (by decide) (by decide) (by decide) (by decide)⟩

/-- C7: `update` returns only the delivered flag (its result type is
`AlertRuleInfo × Bool`, with no replaced component): a pending version
superseded by a newer `update` call is drained and discarded — the new
call succeeds and afterwards only the new version is pending. -/
theorem reconfigure_discards_replaced
    (a : AlertRuleInfo) (v p : RuleVersionAndPauseStatus)
    (hc : a.cancelled = none) (hbuf : a.updateCh.buf = [])
    (hq : a.updateCh.sendq = [p]) (hr : a.updateCh.recvq = 0)
    (hcap : a.updateCh.cap = 0) :
    (a.update v).2 = true ∧
      (a.update v).1.updateCh.sendq = [v] := by
  simp [AlertRuleInfo.update, GoChan.tryRecv, hbuf, hq, hc,
    GoChan.place, GoChan.trySend, GoChan.blockSend, hr, hcap]

/-- Sample active coordinator with one pending version signal. -/
def pendingUpdateSample : AlertRuleInfo :=
  ((newAlertRuleInfo ⟨1, "u"⟩).update ⟨1, false⟩).1

theorem reconfigure_discards_replaced_witness :
    (pendingUpdateSample.cancelled = none ∧
      pendingUpdateSample.updateCh.buf = [] ∧
      pendingUpdateSample.updateCh.sendq = [⟨1, false⟩] ∧
      pendingUpdateSample.updateCh.recvq = 0 ∧
      pendingUpdateSample.updateCh.cap = 0) ∧
      ((pendingUpdateSample.update ⟨2, false⟩).2 = true ∧
        (pendingUpdateSample.update ⟨2, false⟩).1.updateCh.sendq = [⟨2, false⟩]) :=
  ⟨by decide,
    reconfigure_discards_replaced pendingUpdateSample ⟨2, false⟩ ⟨1, false⟩
      (by decide) (by decide) (by decide) (by decide) (by decide)⟩

theorem length_le_one_cases {α : Type} (l : List α) (h : l.length ≤ 1) :
    l = [] ∨ ∃ p, l = [p] := by
  cases l with
  | nil => exact Or.inl rfl
  | cons p t =>
    have ht : t = [] := by simpa [List.length_eq_zero, Nat.succ_le_succ_iff] using h
    exact Or.inr ⟨p, by simp [ht]⟩

/-- Reachable shape of the evaluation channel in a trace with no
consumer currently blocked: capacity zero, empty buffer, no blocked
receivers, at most one blocked sender. -/
def EvalChClean (a : AlertRuleInfo) : Prop :=
  a.evalCh.cap = 0 ∧ a.evalCh.buf = [] ∧ a.evalCh.recvq = 0 ∧
    a.evalCh.sendq.length ≤ 1

/-- Same reachable shape for the update channel. -/
def UpdateChClean (a : AlertRuleInfo) : Prop :=
  a.updateCh.cap = 0 ∧ a.updateCh.buf = [] ∧ a.updateCh.recvq = 0 ∧
    a.updateCh.sendq.length ≤ 1

theorem eval_clean_active_step (a : AlertRuleInfo) (e : Evaluation)
    (h : EvalChClean a) (hc : a.cancelled = none) :
    (a.eval e).1.evalCh.sendq = [e] ∧
      (a.eval e).1.evalCh.cap = 0 ∧ (a.eval e).1.evalCh.buf = [] ∧
      (a.eval e).1.evalCh.recvq = 0 ∧
      (a.eval e).1.cancelled = none ∧
      (a.eval e).2 = (true, a.evalCh.sendq.head?) := by
  obtain ⟨hcap, hbuf, hr, hlen⟩ := h
  rcases length_le_one_cases _ hlen with hs | ⟨p, hs⟩ <;>
    simp [AlertRuleInfo.eval, hc, GoChan.tryRecv, GoChan.place, GoChan.trySend,
      GoChan.blockSend, hbuf, hs, hcap, hr]

theorem update_clean_active_step (a : AlertRuleInfo) (v : RuleVersionAndPauseStatus)
    (h : UpdateChClean a) (hc : a.cancelled = none) :
    (a.update v).1.updateCh.sendq = [v] ∧
      (a.update v).1.updateCh.cap = 0 ∧ (a.update v).1.updateCh.buf = [] ∧
      (a.update v).1.updateCh.recvq = 0 ∧
      (a.update v).1.cancelled = none ∧
      (a.update v).2 = true := by
  obtain ⟨hcap, hbuf, hr, hlen⟩ := h
  rcases length_le_one_cases _ hlen with hs | ⟨p, hs⟩ <;>
    simp [AlertRuleInfo.update, hc, GoChan.tryRecv, GoChan.place, GoChan.trySend,
      GoChan.blockSend, hbuf, hs, hcap, hr]

theorem runTriggers_spec (es : List Evaluation) :
    ∀ a : AlertRuleInfo, EvalChClean a → a.cancelled = none →
      (runTriggers a es).2 = droppedSeq a.evalCh.sendq.head? es ∧
        EvalChClean (runTriggers a es).1 ∧
        (runTriggers a es).1.cancelled = none := by
  induction es with
  | nil => exact fun a h hc => ⟨rfl, h, hc⟩
  | cons e es ih =>
    intro a h hc
    obtain ⟨hq, hcap, hbuf, hr, hcanc, hres⟩ := eval_clean_active_step a e h hc
    have hclean1 : EvalChClean (a.eval e).1 := ⟨hcap, hbuf, hr, by simp [hq]⟩
    obtain ⟨ih1, ih2, ih3⟩ := ih (a.eval e).1 hclean1 hcanc
    refine ⟨?_, ih2, ih3⟩
    show ((a.eval e).2.1, (a.eval e).2.2) :: (runTriggers (a.eval e).1 es).2 =
      droppedSeq a.evalCh.sendq.head? (e :: es)
    rw [hres, ih1, hq]
    simp [droppedSeq]

theorem runUpdates_clean (vs : List RuleVersionAndPauseStatus) :
    ∀ a : AlertRuleInfo, UpdateChClean a → a.cancelled = none →
      UpdateChClean (runUpdates a vs).1 ∧ (runUpdates a vs).1.cancelled = none := by
  induction vs with
  | nil => exact fun a h hc => ⟨h, hc⟩
  | cons v vs ih =>
    intro a h hc
    obtain ⟨hq, hcap, hbuf, hr, hcanc, _⟩ := update_clean_active_step a v h hc
    exact ih (a.update v).1 ⟨hcap, hbuf, hr, by simp [hq]⟩ hcanc

/-- C4: on an un-cancelled coordinator in a reachable state, a sequence
of `eval` calls with no intervening consumption always delivers, and
each call returns the previously pending, undelivered signal as its
dropped value (`droppedSeq` chains each call's dropped value to its
predecessor's payload); at every instant — after every prefix of the
trigger sequence, and likewise for a reconfigure sequence — at most one
signal is pending per channel. -/
theorem trigger_sequence_coalesces_single_pending
    (a : AlertRuleInfo) (es : List Evaluation) (vs : List RuleVersionAndPauseStatus)
    (n m : Nat) (ha : EvalChClean a) (hu : UpdateChClean a)
    (hc : a.cancelled = none) :
    (runTriggers a es).2 = droppedSeq a.evalCh.sendq.head? es ∧
      (runTriggers a (es.take n)).1.evalCh.sendq.length ≤ 1 ∧
      (runUpdates a (vs.take m)).1.updateCh.sendq.length ≤ 1 := by
  refine ⟨(runTriggers_spec es a ha hc).1, ?_, ?_⟩
  · exact ((runTriggers_spec (es.take n) a ha hc).2.1).2.2.2
  · exact ((runUpdates_clean (vs.take m) a hu hc).1).2.2.2

theorem trigger_sequence_coalesces_single_pending_witness :
    (EvalChClean (newAlertRuleInfo ⟨1, "u"⟩) ∧
      UpdateChClean (newAlertRuleInfo ⟨1, "u"⟩) ∧
      (newAlertRuleInfo ⟨1, "u"⟩).cancelled = none) ∧
      ((runTriggers (newAlertRuleInfo ⟨1, "u"⟩) [⟨1⟩, ⟨2⟩, ⟨3⟩]).2 =
          droppedSeq (newAlertRuleInfo ⟨1, "u"⟩).evalCh.sendq.head? [⟨1⟩, ⟨2⟩, ⟨3⟩] ∧
        (runTriggers (newAlertRuleInfo ⟨1, "u"⟩)
            ([⟨1⟩, ⟨2⟩, ⟨3⟩].take 2)).1.evalCh.sendq.length ≤ 1 ∧
        (runUpdates (newAlertRuleInfo ⟨1, "u"⟩)
            ([⟨4, false⟩, ⟨5, true⟩].take 1)).1.updateCh.sendq.length ≤ 1) :=
  ⟨⟨⟨rfl, rfl, rfl, by decide⟩, ⟨rfl, rfl, rfl, by decide⟩, rfl⟩,
    trigger_sequence_coalesces_single_pending (newAlertRuleInfo ⟨1, "u"⟩)
      [⟨1⟩, ⟨2⟩, ⟨3⟩] [⟨4, false⟩, ⟨5, true⟩] 2 1
      ⟨rfl, rfl, rfl, by decide⟩ ⟨rfl, rfl, rfl, by decide⟩ rfl⟩

/-- C9: `newAlertRuleInfo` creates both channels with capacity zero and
an empty buffer; on any capacity-zero channel with empty buffer a send
completes immediately only by rendezvous with a blocked receiver, the
non-blocking drain obtains a value exactly when a blocked sender is
present, and no operation ever deposits a value into the buffer. -/
theorem channels_unbuffered_rendezvous
    (k : AlertRuleKey) (ch : GoChan Evaluation) (e : Evaluation)
    (hcap : ch.cap = 0) (hbuf : ch.buf = []) :
    (newAlertRuleInfo k).evalCh.cap = 0 ∧
      (newAlertRuleInfo k).evalCh.buf = [] ∧
      (newAlertRuleInfo k).updateCh.cap = 0 ∧
      (newAlertRuleInfo k).updateCh.buf = [] ∧
      ((ch.trySend e).2 = true ↔ 0 < ch.recvq) ∧
      ((ch.tryRecv).2.isSome ↔ ch.sendq ≠ []) ∧
      (ch.trySend e).1.buf = [] ∧
      (ch.tryRecv).1.buf = [] ∧
      (ch.blockSend e).buf = [] := by
  refine ⟨rfl, rfl, rfl, rfl, ?_, ?_, ?_, ?_, ?_⟩
  · unfold GoChan.trySend
    by_cases h : 0 < ch.recvq <;> simp [h, hcap, hbuf]
  · cases hs : ch.sendq <;> simp [GoChan.tryRecv, hbuf, hs]
  · unfold GoChan.trySend
    by_cases h : 0 < ch.recvq <;> simp [h, hcap, hbuf]
  · cases hs : ch.sendq <;> simp [GoChan.tryRecv, hbuf, hs]
  · simp [GoChan.blockSend, hbuf]

theorem channels_unbuffered_rendezvous_witness :
    (((makeChan Evaluation 0).blockSend ⟨5⟩).cap = 0 ∧
      ((makeChan Evaluation 0).blockSend ⟨5⟩).buf = []) ∧
      ((newAlertRuleInfo ⟨1, "u"⟩).evalCh.cap = 0 ∧
        (newAlertRuleInfo ⟨1, "u"⟩).evalCh.buf = [] ∧
        (newAlertRuleInfo ⟨1, "u"⟩).updateCh.cap = 0 ∧
        (newAlertRuleInfo ⟨1, "u"⟩).updateCh.buf = [] ∧
        ((((makeChan Evaluation 0).blockSend ⟨5⟩).trySend ⟨6⟩).2 = true ↔
          0 < ((makeChan Evaluation 0).blockSend ⟨5⟩).recvq) ∧
        ((((makeChan Evaluation 0).blockSend ⟨5⟩).tryRecv).2.isSome ↔
          ((makeChan Evaluation 0).blockSend ⟨5⟩).sendq ≠ []) ∧
        (((makeChan Evaluation 0).blockSend ⟨5⟩).trySend ⟨6⟩).1.buf = [] ∧
        (((makeChan Evaluation 0).blockSend ⟨5⟩).tryRecv).1.buf = [] ∧
        (((makeChan Evaluation 0).blockSend ⟨5⟩).blockSend ⟨6⟩).buf = []) :=
  ⟨by decide,
    channels_unbuffered_rendezvous ⟨1, "u"⟩ ((makeChan Evaluation 0).blockSend ⟨5⟩) ⟨6⟩
      (by decide) (by decide)⟩

end GrafanaSchedule
